import Mathlib

/-!
Verification of the Hitster game server (backend/main.py).

This file gives a shallow embedding of the room/turn state machine of the
server and proves the stated properties about it.  Python dictionaries whose
shape is fixed by the code (cards, decks, payloads) become structures; Python
sets become lists with membership semantics; randomness (random.choice,
random.choices, random.randint) is modelled by explicit pick parameters;
network / Spotify calls are external collaborators and are modelled by their
results (e.g. the loaded playlist passed to the start handler).  Broadcasts
are collected in an event list in emission order.
-/

/-- Tie resolution policy of a room (field tiePolicy, backend/main.py:85). -/
inductive TiePolicy where
  | strict
  | lenient
  deriving Repr, DecidableEq

/-- Phase of a turn (TurnState.phase, backend/main.py:66). -/
inductive Phase where
  | playing
  | placing
  | result
  deriving Repr, DecidableEq

/-- Room status (Room.status, backend/main.py:75; the start handler also
assigns the transient value "setup" at line 541). -/
inductive RoomStatus where
  | lobby
  | setup
  | playing
  | placing
  | result
  | finished
  | postGame
  deriving Repr, DecidableEq

/-- Release information of a card, built by _map_track_to_card
(backend/main.py:824). -/
structure Release where
  date : String
  precision : String
  deriving Repr, DecidableEq

/-- A deck card, as built by _map_track_to_card (backend/main.py:817).
Display-only fields that no claim inspects (album, coverUrl) are kept as
plain strings. -/
structure Card where
  trackId : String
  uri : String
  name : String
  artist : String
  release : Release
  deriving Repr, DecidableEq

instance : Inhabited Card :=
  ⟨{ trackId := "", uri := "", name := "", artist := "",
     release := { date := "", precision := "" } }⟩

/-- Player model (backend/main.py:54). -/
structure Player where
  id : String
  name : String
  seat : Nat
  score : Nat
  is_host : Bool
  timeline : List Card
  deriving Repr, DecidableEq

instance : Inhabited Player :=
  ⟨{ id := "", name := "", seat := 0, score := 0, is_host := false, timeline := [] }⟩

/-- Turn state (backend/main.py:62). -/
structure TurnState where
  turnId : String
  currentPlayerId : String
  drawn : Option Card
  phase : Phase
  play_started : Bool
  last_play_uri : Option String
  deriving Repr, DecidableEq

/-- Deck state (the deck dict, backend/main.py:78).  The Python sets used and
discard are modelled as lists with membership semantics. -/
structure DeckState where
  playlistId : Option String
  cards : List Card
  used : List String
  discard : List String
  deriving Repr, DecidableEq

/-- Room model (backend/main.py:71).  The votes dict is not modelled: no
verified property concerns the replay vote. -/
structure Room where
  code : String
  hostId : String
  players : List Player
  status : RoomStatus
  turnIndex : Nat
  turn : Option TurnState
  deck : DeckState
  winnerId : Option String
  tiePolicy : TiePolicy
  targetPoints : Int
  deriving Repr, DecidableEq

/-- The song payload of the turn:play broadcast (backend/main.py:378). -/
structure SongPayload where
  trackId : String
  uri : String
  release : Release
  deriving Repr, DecidableEq

/-- The fields of the turn:result payload that the verified properties track
(backend/main.py:1263). -/
structure ResultPayload where
  turnId : String
  playerId : String
  chosenIndex : Int
  correctIndex : Nat
  correct : Bool
  finalIndex : Option Nat
  deriving Repr, DecidableEq

/-- Broadcast events, in emission order.  The room:init payload
(_serialize_room) is not inspected by any verified property, so it carries no
data here. -/
inductive Event where
  | roomInit
  | turnBegin (turnId : String) (currentPlayerId : String)
  | turnPlay (turnId : String) (playerId : String) (song : SongPayload)
  | turnPlacing (turnId : String)
  | turnResult (payload : ResultPayload)
  | gameFinish (winnerId : Option String)
  | gameOver (ranking : List Player) (winnerId : String) (targetPoints : Int)
  | winnerDeciding (winnerId : String)
  | gameError (message : String)
  deriving Repr, DecidableEq

instance : Inhabited Event := ⟨Event.roomInit⟩

/-- HTTP responses returned by the REST endpoints. -/
inductive HTTPResponse where
  | text (status : Nat) (body : String)
  | jsonError (status : Nat) (message : String)
  | jsonConfirm (correct : Bool) (newScore : Option Nat) (finalIndex : Option Nat)
  | jsonCreate (code : String) (hostId : String) (targetPoints : Int)
  | noContent
  deriving Repr, DecidableEq

/-! ## TimelineValidator -/

/-- The leading "-"-separated field of a date string: Python
date.split("-")[0] in _compute_insert_position (backend/main.py:288). -/
def _year_field (date : String) : List Char :=
  date.toList.takeWhile (fun c => c ≠ '-')

/-- Decimal value of a digit string, the behaviour of Python int() on a
string of digits. -/
def _digits_to_nat (cs : List Char) : Nat :=
  cs.foldl (fun n c => n * 10 + (c.toNat - '0'.toNat)) 0

/-- Year extraction of _compute_insert_position (backend/main.py:288):
int(date.split("-")[0]) if date and date.split("-")[0].isdigit() else 0. -/
def yearOf (date : String) : Nat :=
  let head := _year_field date
  if date.toList ≠ [] ∧ head ≠ [] ∧ head.all Char.isDigit then _digits_to_nat head else 0

/-- The years list extracted from a timeline (backend/main.py:285-289). -/
def yearsOf (timeline : List Card) : List Nat :=
  timeline.map (fun card => yearOf card.release.date)

/-- The binary-search loop of _compute_insert_position
(backend/main.py:299-306). -/
def _lb_loop (years : List Nat) (target : Nat) (lo hi : Nat) : Nat :=
  if _h : lo < hi then
    let mid := (lo + hi) / 2
    if years.getD mid 0 < target then _lb_loop years target (mid + 1) hi
    else _lb_loop years target lo mid
  else lo
termination_by hi - lo
decreasing_by
  · have hmid : (lo + hi) / 2 < hi := Nat.div_lt_of_lt_mul (by omega)
    omega
  · have hmid : lo ≤ (lo + hi) / 2 := Nat.le_div_iff_mul_le (by omega) |>.mpr (by omega)
    have hmid2 : (lo + hi) / 2 < hi := Nat.div_lt_of_lt_mul (by omega)
    omega

/-- The leftward widening loop of _compute_insert_position
(backend/main.py:314-315): while left - 1 >= 0 and years[left-1] == target. -/
def _walk_left (years : List Nat) (target : Nat) : Nat → Nat
  | 0 => 0
  | l + 1 => if years.getD l 0 = target then _walk_left years target l else l + 1

/-- The rightward widening loop of _compute_insert_position
(backend/main.py:316-317): while right < len(years) and years[right] == target. -/
def _walk_right (years : List Nat) (target : Nat) (r : Nat) : Nat :=
  if _h : r < years.length then
    if years.getD r 0 = target then _walk_right years target (r + 1) else r
  else r
termination_by years.length - r

/-- _compute_insert_position (backend/main.py:279-319). -/
def _compute_insert_position (timeline : List Card) (track : Card)
    (tie_policy : TiePolicy) : Nat × Option (Nat × Nat) :=
  let years := yearsOf timeline
  let target_year := yearOf track.release.date
  if years.isEmpty then
    (0, if tie_policy = .lenient then some (0, 0) else none)
  else
    let lo := _lb_loop years target_year 0 years.length
    if tie_policy = .strict then (lo, none)
    else (lo, some (_walk_left years target_year lo, _walk_right years target_year lo))

/-- The lenient branch of confirm_position (backend/main.py:1254-1261):
clamp the chosen index into the acceptance range for insertion and judge
correctness as left <= targetIndex <= right. -/
def _lenient_resolve (left right : Nat) (targetIndex : Int) : Int × Bool :=
  let insertIndex : Int :=
    if targetIndex < (left : Int) then (left : Int)
    else if (right : Int) < targetIndex then (right : Int)
    else targetIndex
  (insertIndex, decide ((left : Int) ≤ targetIndex) && decide (targetIndex ≤ (right : Int)))

/-- The placement-resolution step of confirm_position (backend/main.py:1248-1261),
returning the insertion index before the final bounds clamp, and the
correctness verdict. -/
def _resolve_placement (tie_policy : TiePolicy) (timeline : List Card) (card : Card)
    (targetIndex : Int) : Int × Bool :=
  let r := _compute_insert_position timeline card tie_policy
  match tie_policy with
  | .strict => ((r.1 : Int), decide (targetIndex = (r.1 : Int)))
  | .lenient =>
    let lr := r.2.getD (r.1, r.1)
    _lenient_resolve lr.1 lr.2 targetIndex

/-! ## DeckEngine -/

/-- _available_deck_cards (backend/main.py:229-236). -/
def _available_deck_cards (room : Room) : List Card :=
  room.deck.cards.filter
    (fun card => !(room.deck.used.contains card.trackId)
              && !(room.deck.discard.contains card.trackId))

/-- _draw_track_card (backend/main.py:238-244).  random.choice is modelled by
the pick parameter k, reduced modulo the number of available cards; the card
drawn is marked used.  Returns the drawn card (none when no card is
available) together with the updated room. -/
def _draw_track_card (room : Room) (k : Nat) : Option Card × Room :=
  let available := _available_deck_cards room
  if available.isEmpty then (none, room)
  else
    let card := available.getD (k % available.length) default
    (some card, { room with deck := { room.deck with used := card.trackId :: room.deck.used } })

/-! ## RoomRegistry helpers -/

/-- Uppercasing of a Python str.upper() call, at the character level. -/
def _upper (s : String) : List Char :=
  s.toList.map Char.toUpper

/-- The host-entry test repeated throughout the code (e.g.
backend/main.py:263, 335, 353): p.is_host or p.id == hostId or
p.id.upper() == "HOST". -/
def _is_host_entry (hostId : String) (p : Player) : Bool :=
  p.is_host || p.id == hostId || _upper p.id == "HOST".toList

/-- _cleanup_host_entries (backend/main.py:259-267). -/
def _cleanup_host_entries (room : Room) : Room :=
  { room with players := room.players.filter (fun p => !(_is_host_entry room.hostId p)) }

/-- The actual-players filter used by the turn machinery (e.g.
backend/main.py:353, 394, 511). -/
def actual_players (room : Room) : List Player :=
  room.players.filter (fun p => !(_is_host_entry room.hostId p))

/-- _get_player (backend/main.py:253-257): the first player with the given
id. -/
def _get_player (room : Room) (player_id : String) : Option Player :=
  room.players.find? (fun p => p.id == player_id)

/-- In-place mutation of a player object: replace the first player whose id
matches. -/
def _update_player : List Player → String → Player → List Player
  | [], _, _ => []
  | q :: rest, pid, p =>
    if q.id == pid then p :: rest else q :: _update_player rest pid p

/-! ## TurnCoordinator -/

/-- The dealing loop of _deal_opening_cards (backend/main.py:333-343).  The
room is threaded through for the deck mutations of each draw; picks supplies
one random pick per draw. -/
def _deal_loop (hostId : String) : Room → List Player → List Nat →
    Except String (List Player × Room)
  | room, [], _ => .ok ([], room)
  | room, p :: rest, picks =>
    if _is_host_entry hostId p then
      match _deal_loop hostId room rest picks with
      | .error e => .error e
      | .ok (ps, room1) => .ok (p :: ps, room1)
    else
      match _draw_track_card room (picks.headD 0) with
      | (none, _) => .error "Deck exhausted during deal"
      | (some card, room1) =>
        match _deal_loop hostId room1 rest picks.tail with
        | .error e => .error e
        | .ok (ps, room2) =>
          .ok ({ p with timeline := [card], score := 1 } :: ps, room2)

/-- _deal_opening_cards (backend/main.py:321-344).  Raising ValueError is
modelled by Except.error with the exception message. -/
def _deal_opening_cards (room0 : Room) (picks : List Nat) : Except String Room :=
  let room := _cleanup_host_entries room0
  if room.players.isEmpty then .error "No players to deal"
  else if room.players.any (fun p => !p.timeline.isEmpty) then .ok room
  else if (_available_deck_cards room).length < room.players.length then
    .error "Not enough tracks to deal opening cards"
  else
    match _deal_loop room.hostId room room.players picks with
    | .error e => .error e
    | .ok (ps, room1) => .ok { room1 with players := ps }

/-- _begin_turn (backend/main.py:346-385).  turnId stands for the generated
code4() + code4() token; k is the random pick of the draw. -/
def _begin_turn (room0 : Room) (turnId : String) (k : Nat) : Room × List Event :=
  let room := _cleanup_host_entries room0
  if room.status = .finished ∨ room.players.isEmpty then (room, [])
  else
    let actual := actual_players room
    if actual.isEmpty then (room, [])
    else
      let room := if actual.length ≤ room.turnIndex then { room with turnIndex := 0 } else room
      let player := actual.getD room.turnIndex default
      match _draw_track_card room k with
      | (none, room1) =>
        ({ room1 with status := .finished }, [.gameFinish room1.winnerId])
      | (some card, room1) =>
        let room2 := { room1 with
          turn := some { turnId := turnId, currentPlayerId := player.id, drawn := some card,
                         phase := .playing, play_started := false, last_play_uri := none },
          status := .playing }
        (room2, [.turnBegin turnId player.id,
                 .turnPlay turnId player.id
                   { trackId := card.trackId, uri := card.uri, release := card.release }])

/-- _advance_turn (backend/main.py:387-403). -/
def _advance_turn (room0 : Room) (turnId : String) (k : Nat) : Room × List Event :=
  if room0.status = .finished then (room0, [])
  else
    let room := _cleanup_host_entries room0
    let actual := actual_players room
    if actual.isEmpty then
      ({ room with status := .finished }, [.gameFinish room.winnerId])
    else
      let room := { room with turnIndex := (room.turnIndex + 1) % actual.length,
                              turn := none, status := .playing }
      _begin_turn room turnId k

/-- The next_turn endpoint, POST /api/turn/next (backend/main.py:1370-1382).
The Option Room argument is the result of the rooms.get lookup; the returned
Option Room is the updated room. -/
def next_turn (roomOpt : Option Room) (turnId : String) (k : Nat) :
    HTTPResponse × Option Room × List Event :=
  match roomOpt with
  | none => (.text 404 "Room not found", none, [])
  | some room =>
    if room.status = .finished then (.noContent, some room, [])
    else
      match room.turn with
      | none => (.text 409 "Turn not completed", some room, [])
      | some t =>
        if t.phase ≠ .result then (.text 409 "Turn not completed", some room, [])
        else
          let r := _advance_turn { room with turn := none } turnId k
          (.noContent, some r.1, r.2 ++ [.roomInit])

/-! ## confirm_position -/

/-- The payload of POST /api/turn/confirm_position (backend/main.py:452). -/
structure ConfirmPositionPayload where
  roomCode : String
  playerId : String
  turnId : String
  targetIndex : Int
  deriving Repr, DecidableEq

/-- The win-check condition of confirm_position (backend/main.py:1301). -/
def _win_check (room : Room) (player : Player) : Bool :=
  decide (room.targetPoints ≤ (player.score : Int))
    && !player.is_host && player.id != room.hostId && !(_upper player.id == "HOST".toList)

/-- The descending-by-score stable sort used for the gameOver ranking
(backend/main.py:1307): sorted(room.players, key=lambda p: p.score,
reverse=True). -/
def _ranking (players : List Player) : List Player :=
  players.mergeSort (fun a b => decide (b.score ≤ a.score))

/-- The final clamp of the insertion index in confirm_position
(backend/main.py:1271): max(0, min(insert_index, len(timeline))). -/
def _placement_fi (tie_policy : TiePolicy) (timeline : List Card) (card : Card)
    (targetIndex : Int) : Nat :=
  (max 0 (min (_resolve_placement tie_policy timeline card targetIndex).1
    (timeline.length : Int))).toNat

/-- The acting player after a correct placement (backend/main.py:1272-1273):
the card inserted at the final index, the score recomputed as the timeline
length. -/
def _placed_player (player : Player) (card : Card) (fi : Nat) : Player :=
  let newTimeline := player.timeline.insertIdx fi card
  { player with timeline := newTimeline, score := newTimeline.length }

/-- The room state after a correct placement (backend/main.py:1272-1304):
player updated, turn moved to the result phase with the drawn card cleared,
and on a met win condition the winner recorded and the status moved to
postGame. -/
def _room_after_correct (room : Room) (turn : TurnState) (card : Card) (player : Player)
    (p : ConfirmPositionPayload) : Room :=
  let fi := _placement_fi room.tiePolicy player.timeline card p.targetIndex
  let player1 := _placed_player player card fi
  let room1 := { room with
    players := _update_player room.players p.playerId player1,
    turn := some { turn with phase := .result, drawn := none, play_started := false },
    status := .result }
  if _win_check room player1 then
    { room1 with winnerId := some player1.id, status := .postGame }
  else room1

/-- The body of confirm_position after all guards have passed
(backend/main.py:1248-1367).  room is the looked-up room, turn its active
turn, card the drawn card and player the acting player.  The win check reads
targetPoints and hostId, which the placement mutations never touch, so it is
evaluated against the incoming room and the updated player. -/
def _confirm_resolved (room : Room) (turn : TurnState) (card : Card) (player : Player)
    (p : ConfirmPositionPayload) : HTTPResponse × Option Room × List Event :=
  let idx := (_compute_insert_position player.timeline card room.tiePolicy).1
  let resolved := _resolve_placement room.tiePolicy player.timeline card p.targetIndex
  if resolved.2 then
    let fi := _placement_fi room.tiePolicy player.timeline card p.targetIndex
    let player1 := _placed_player player card fi
    let room2 := _room_after_correct room turn card player p
    let rp : ResultPayload :=
      { turnId := turn.turnId, playerId := player.id, chosenIndex := p.targetIndex,
        correctIndex := idx, correct := true, finalIndex := some fi }
    let winEvents :=
      if _win_check room player1 then
        [Event.gameOver (_ranking (_update_player room.players p.playerId player1))
           player1.id room.targetPoints,
         Event.winnerDeciding player1.id]
      else []
    let finishEvents :=
      match room2.winnerId with
      | some w => if room2.status = .finished then [Event.gameFinish (some w)] else []
      | none => []
    (.jsonConfirm true (some player1.score) (some fi), some room2,
     winEvents ++ [Event.turnResult rp] ++ finishEvents ++ [Event.roomInit])
  else
    let deck1 := { room.deck with discard := card.trackId :: room.deck.discard }
    let turn1 := { turn with phase := .result, drawn := none, play_started := false }
    let room1 := { room with deck := deck1, turn := some turn1, status := .result }
    let rp : ResultPayload :=
      { turnId := turn.turnId, playerId := player.id, chosenIndex := p.targetIndex,
        correctIndex := idx, correct := false, finalIndex := none }
    let finishEvents :=
      match room1.winnerId with
      | some w => if room1.status = .finished then [Event.gameFinish (some w)] else []
      | none => []
    (.jsonConfirm false none none, some room1,
     [Event.turnResult rp] ++ finishEvents ++ [Event.roomInit])

/-- The confirm_position endpoint, POST /api/turn/confirm_position
(backend/main.py:1218-1367).  The Option Room argument is the result of the
rooms.get lookup; failures of any precondition return an error response and
leave the room unchanged, mirroring the guard chain at lines 1220-1246. -/
def confirm_position (roomOpt : Option Room) (p : ConfirmPositionPayload) :
    HTTPResponse × Option Room × List Event :=
  match roomOpt with
  | none => (.text 404 "Room not found", none, [])
  | some room =>
    match room.turn with
    | none => (.text 409 "Turn mismatch", some room, [])
    | some turn =>
      if turn.turnId ≠ p.turnId then (.text 409 "Turn mismatch", some room, [])
      else if turn.currentPlayerId ≠ p.playerId then (.text 409 "Wrong player", some room, [])
      else if ¬(turn.phase = .playing ∨ turn.phase = .placing) then
        (.text 409 "Turn not accepting placements", some room, [])
      else if turn.play_started = false then (.text 409 "Play not started", some room, [])
      else
        match turn.drawn with
        | none => (.text 409 "No drawn card", some room, [])
        | some card =>
          match _get_player room p.playerId with
          | none => (.text 404 "Player not found", some room, [])
          | some player =>
            if player.is_host || player.id == room.hostId || _upper player.id == "HOST".toList then
              (.text 403 "Host cannot play", some room, [])
            else
              _confirm_resolved room turn card player p

/-! ## RoomRegistry: create_room -/

/-- The alphabet of code4 (backend/main.py:427): ascii_uppercase + digits. -/
def _code4_alphabet : List Char :=
  "ABCDEFGHIJKLMNOPQRSTUVWXYZ0123456789".toList

/-- code4 (backend/main.py:427-428): four random picks from the alphabet,
modelled by the pick function. -/
def code4 (pick : Nat → Nat) : String :=
  String.mk ((List.range 4).map
    (fun i => _code4_alphabet.getD (pick i % _code4_alphabet.length) 'A'))

/-- Lookup in the rooms dict (first binding of the code). -/
def _rooms_get (rooms : List (String × Room)) (code : String) : Option Room :=
  (rooms.find? (fun kv => kv.1 == code)).map (fun kv => kv.2)

/-- Assignment rooms[code] = room: replace the binding when the key exists,
append it otherwise. -/
def _rooms_set : List (String × Room) → String → Room → List (String × Room)
  | [], code, room => [(code, room)]
  | kv :: rest, code, room =>
    if kv.1 == code then (code, room) :: rest else kv :: _rooms_set rest code room

/-- The fresh room built by create_room (backend/main.py:445), with the
pydantic field defaults of the Room model. -/
def _fresh_room (code : String) (host_id : String) (targetPoints : Int) : Room :=
  { code := code, hostId := host_id, players := [], status := .lobby, turnIndex := 0,
    turn := none, deck := { playlistId := none, cards := [], used := [], discard := [] },
    winnerId := none, tiePolicy := .lenient, targetPoints := targetPoints }

/-- The create_room endpoint, GET /api/create-room (backend/main.py:433-449).
pick models the random.choices draw of code4 and randHost the
random.randint(1000, 9999) fallback host id.  Note that code4 is called once:
there is no retry on collision with an existing code, and the assignment
rooms[code] = room replaces any room stored under the same code. -/
def create_room (rooms : List (String × Room)) (hostId : Option String)
    (targetPoints : Int) (pick : Nat → Nat) (randHost : Nat) :
    HTTPResponse × List (String × Room) :=
  if ¬(1 ≤ targetPoints ∧ targetPoints ≤ 100) then
    (.jsonError 400 "targetPoints must be between 1 and 100", rooms)
  else
    let host_id := hostId.getD ("host-" ++ toString (1000 + randHost % 9000))
    let code := code4 pick
    let room := _fresh_room code host_id targetPoints
    (.jsonCreate code host_id targetPoints, _rooms_set rooms code room)

/-! ## The start event handler -/

/-- The per-player reset of the start handler (backend/main.py:534-538):
non-host players get an empty timeline and a zero score. -/
def _reset_player (hostId : String) (p : Player) : Player :=
  if _is_host_entry hostId p then p else { p with timeline := [], score := 0 }

/-- The start branch of the websocket handler (backend/main.py:500-552).  The
_load_playlist network call is external: cards stands for its successful
result (the exception branch at line 522 only reports the failure and leaves
the room untouched).  picks supplies the random picks of the opening deal,
turnId and k those of the first _begin_turn. -/
def handle_start (room0 : Room) (hostIdIn : String) (tiePolicyIn : Option TiePolicy)
    (playlistId : Option String) (cards : List Card) (picks : List Nat)
    (turnId : String) (k : Nat) : Room × List Event :=
  if hostIdIn ≠ room0.hostId then
    (room0, [.gameError "Only the host can start the game."])
  else if room0.status ≠ .lobby then
    (room0, [.gameError "Game already started or finished."])
  else
    let room := _cleanup_host_entries room0
    if (actual_players room).length < 2 then
      (room, [.gameError "Need at least 2 players to start."])
    else
      let room := match tiePolicyIn with
        | some tp => { room with tiePolicy := tp }
        | none => room
      if cards.isEmpty then (room, [.gameError "Playlist not playable or empty."])
      else
        let room := { room with
          deck := { playlistId := playlistId, cards := cards, used := [], discard := [] } }
        let room := { room with players := room.players.map (_reset_player room.hostId),
                                turnIndex := 0, turn := none, status := .setup,
                                winnerId := none }
        match _deal_opening_cards room picks with
        | .error msg => ({ room with status := .lobby }, [.gameError msg])
        | .ok room1 =>
          let room2 := { room1 with status := .playing }
          let r := _begin_turn room2 turnId k
          (r.1, Event.roomInit :: r.2)

/-! ## Deck operation traces -/

/-- The operations that touch a deck during a game: a draw
(_draw_track_card) and the discard of an incorrectly placed card
(backend/main.py:1331). -/
inductive DeckOp where
  | draw (k : Nat)
  | discardTrack (tid : String)
  deriving Repr, DecidableEq

/-- Application of one deck operation to a room. -/
def applyDeckOp (room : Room) : DeckOp → Room
  | .draw k => (_draw_track_card room k).2
  | .discardTrack tid =>
    { room with deck := { room.deck with discard := tid :: room.deck.discard } }

/-- Application of a sequence of deck operations. -/
def applyDeckOps (room : Room) (ops : List DeckOp) : Room :=
  ops.foldl applyDeckOp room

/-! ## Properties of the TimelineValidator -/

/-- Monotonicity of getD on sorted lists. -/
theorem sorted_getD_mono {ys : List Nat} (hs : List.Sorted (· ≤ ·) ys) {i j : Nat}
    (hij : i ≤ j) (hj : j < ys.length) : ys.getD i 0 ≤ ys.getD j 0 := by
  rcases Nat.eq_or_lt_of_le hij with h | h
  · subst h; exact le_refl _
  · rw [List.getD_eq_getElem ys 0 (h.trans hj), List.getD_eq_getElem ys 0 hj]
    exact List.pairwise_iff_getElem.mp hs i j (h.trans hj) hj h

/-- The binary-search loop computes the lower-bound position: every index
below the result holds a year below the target, the result's own year (when
in range) is at least the target. -/
theorem _lb_loop_spec (ys : List Nat) (t : Nat) (hs : List.Sorted (· ≤ ·) ys) :
    ∀ n lo hi, hi - lo = n → lo ≤ hi → hi ≤ ys.length →
    (∀ i, i < lo → ys.getD i 0 < t) →
    (∀ i, hi ≤ i → i < ys.length → t ≤ ys.getD i 0) →
    (∀ i, i < _lb_loop ys t lo hi → ys.getD i 0 < t) ∧
      (_lb_loop ys t lo hi < ys.length → t ≤ ys.getD (_lb_loop ys t lo hi) 0) ∧
      lo ≤ _lb_loop ys t lo hi ∧ _lb_loop ys t lo hi ≤ hi := by
  intro n
  induction n using Nat.strong_induction_on with
  | _ n ih =>
    intro lo hi hn hlh hhi hlow hhigh
    rw [_lb_loop]
    by_cases h : lo < hi
    · rw [dif_pos h]
      have hmidlt : (lo + hi) / 2 < hi := Nat.div_lt_of_lt_mul (by omega)
      have hmidge : lo ≤ (lo + hi) / 2 := Nat.le_div_iff_mul_le (by omega) |>.mpr (by omega)
      by_cases hm : ys.getD ((lo + hi) / 2) 0 < t
      · rw [if_pos hm]
        have hrec := ih (hi - ((lo + hi) / 2 + 1)) (by omega) ((lo + hi) / 2 + 1) hi rfl
          (by omega) hhi
          (fun i hi2 => lt_of_le_of_lt
            (sorted_getD_mono hs (by omega) (by omega)) hm)
          hhigh
        exact ⟨hrec.1, hrec.2.1, by omega, hrec.2.2.2⟩
      · rw [if_neg hm]
        have hrec := ih ((lo + hi) / 2 - lo) (by omega) lo ((lo + hi) / 2) rfl
          (by omega) (by omega) hlow
          (fun i hge hlen => le_trans (Nat.le_of_not_lt hm)
            (sorted_getD_mono hs hge hlen))
        exact ⟨hrec.1, hrec.2.1, hrec.2.2.1, by omega⟩
    · rw [dif_neg h]
      have : lo = hi := by omega
      exact ⟨hlow, fun hlt => hhigh lo (by omega) hlt, le_refl lo, by omega⟩

/-- C4: for every timeline sorted ascending by year and every target year,
the strict-policy insertion index of _compute_insert_position is the
lower-bound binary-search position: it is at most the timeline length, every
earlier index holds a year strictly below the target, and the year at the
index itself (when the index is in range) is at least the target — that is,
it is the smallest index whose year is greater than or equal to the target
year. -/
theorem C4_strict_index_is_lower_bound (timeline : List Card) (track : Card)
    (hs : List.Sorted (· ≤ ·) (yearsOf timeline)) :
    (_compute_insert_position timeline track .strict).1 ≤ (yearsOf timeline).length ∧
    (∀ i, i < (_compute_insert_position timeline track .strict).1 →
      (yearsOf timeline).getD i 0 < yearOf track.release.date) ∧
    ((_compute_insert_position timeline track .strict).1 < (yearsOf timeline).length →
      yearOf track.release.date ≤
        (yearsOf timeline).getD (_compute_insert_position timeline track .strict).1 0) := by
  by_cases hemp : (yearsOf timeline).isEmpty
  · have hnil : yearsOf timeline = [] := List.isEmpty_iff.mp hemp
    simp [_compute_insert_position, hnil]
  · have hspec := _lb_loop_spec (yearsOf timeline) (yearOf track.release.date) hs
      ((yearsOf timeline).length - 0) 0 (yearsOf timeline).length rfl (Nat.zero_le _)
      (le_refl _) (fun i hi => absurd hi (Nat.not_lt_zero i))
      (fun i hge hlt => absurd hge (Nat.not_le_of_lt hlt))
    simp only [_compute_insert_position, hemp]
    simp only [Bool.false_eq_true, if_false, reduceIte]
    exact ⟨hspec.2.2.2, hspec.1, hspec.2.1⟩

/-- Witness for C4 at a concrete sorted timeline and target year 1992. -/
theorem C4_strict_index_is_lower_bound_witness :
    let timeline := [{ trackId := "a", uri := "u1", name := "n1", artist := "r1",
                       release := { date := "1990-01-01", precision := "day" } },
                     { trackId := "b", uri := "u2", name := "n2", artist := "r2",
                       release := { date := "1995-06-01", precision := "day" } }]
    let track : Card := { trackId := "c", uri := "u3", name := "n3", artist := "r3",
                          release := { date := "1992-03-04", precision := "day" } }
    (_compute_insert_position timeline track .strict).1 ≤ (yearsOf timeline).length ∧
    (∀ i, i < (_compute_insert_position timeline track .strict).1 →
      (yearsOf timeline).getD i 0 < yearOf track.release.date) ∧
    ((_compute_insert_position timeline track .strict).1 < (yearsOf timeline).length →
      yearOf track.release.date ≤
        (yearsOf timeline).getD (_compute_insert_position timeline track .strict).1 0) :=
  C4_strict_index_is_lower_bound _ _ (by decide)

/-- The leftward widening loop does not move when everything left of the
start is below the target. -/
theorem _walk_left_fixed (ys : List Nat) (t : Nat) (lo : Nat)
    (hlow : ∀ i, i < lo → ys.getD i 0 < t) : _walk_left ys t lo = lo := by
  cases lo with
  | zero => rfl
  | succ l =>
    have hne : ys.getD l 0 ≠ t := Nat.ne_of_lt (hlow l (Nat.lt_succ_self l))
    simp only [_walk_left, if_neg hne]

/-- Specification of the rightward widening loop: it scans the maximal block
of target years starting at the given position. -/
theorem _walk_right_spec (ys : List Nat) (t : Nat) :
    ∀ n r, ys.length - r = n →
    r ≤ _walk_right ys t r ∧ _walk_right ys t r ≤ max r ys.length ∧
      (∀ i, r ≤ i → i < _walk_right ys t r → ys.getD i 0 = t) ∧
      (_walk_right ys t r < ys.length → ys.getD (_walk_right ys t r) 0 ≠ t) := by
  intro n
  induction n using Nat.strong_induction_on with
  | _ n ih =>
    intro r hn
    rw [_walk_right]
    by_cases h : r < ys.length
    · rw [dif_pos h]
      by_cases hm : ys.getD r 0 = t
      · rw [if_pos hm]
        have hrec := ih (ys.length - (r + 1)) (by omega) (r + 1) rfl
        refine ⟨by omega, by omega, ?_, hrec.2.2.2⟩
        intro i hge hlt
        rcases Nat.eq_or_lt_of_le hge with he | hgt
        · subst he; exact hm
        · exact hrec.2.2.1 i hgt hlt
      · rw [if_neg hm]
        exact ⟨le_refl r, le_max_left r _, fun i hge hlt => absurd (lt_of_le_of_lt hge hlt)
          (lt_irrefl r), fun _ => hm⟩
    · rw [dif_neg h]
      exact ⟨le_refl r, le_max_left r _,
        fun i hge hlt => absurd (lt_of_le_of_lt hge hlt) (lt_irrefl r),
        fun hlt => absurd hlt h⟩

/-- Counting the occurrences of a year in a sorted list from the block of
positions that hold it: when the years below position lo are smaller than t,
the years at positions lo..r-1 are t, and the year at r (if any) is above t,
then t occurs exactly r - lo times. -/
theorem count_of_block (ys : List Nat) (t : Nat) (hs : List.Sorted (· ≤ ·) ys)
    (lo r : Nat) (hlor : lo ≤ r) (hr : r ≤ ys.length)
    (hbefore : ∀ i, i < lo → ys.getD i 0 < t)
    (hblock : ∀ i, lo ≤ i → i < r → ys.getD i 0 = t)
    (hafter : r < ys.length → t < ys.getD r 0) :
    ys.count t = r - lo := by
  have hsplit : ys.count t = (ys.take r).count t + (ys.drop r).count t := by
    conv_lhs => rw [← List.take_append_drop r ys]
    rw [List.count_append]
  have hdrop : (ys.drop r).count t = 0 := by
    apply List.count_eq_zero.mpr
    intro hmem
    obtain ⟨i, hil, hieq⟩ := List.mem_iff_getElem.mp hmem
    rw [List.length_drop] at hil
    have hrlen : r < ys.length := by omega
    have hri : r + i < ys.length := by omega
    have hgd : ys.getD (r + i) 0 = t := by
      rw [List.getD_eq_getElem ys 0 hri, ← hieq, List.getElem_drop]
    have hmono : ys.getD r 0 ≤ ys.getD (r + i) 0 :=
      sorted_getD_mono hs (Nat.le_add_right r i) hri
    have := hafter hrlen
    omega
  have htakesplit : (ys.take r).count t =
      ((ys.take r).take lo).count t + ((ys.take r).drop lo).count t := by
    conv_lhs => rw [← List.take_append_drop lo (ys.take r)]
    rw [List.count_append]
  have htaketake : (ys.take r).take lo = ys.take lo := by
    rw [List.take_take, Nat.min_eq_left hlor]
  have hlow : (ys.take lo).count t = 0 := by
    apply List.count_eq_zero.mpr
    intro hmem
    obtain ⟨i, hil, hieq⟩ := List.mem_iff_getElem.mp hmem
    rw [List.length_take] at hil
    have hilo : i < lo := lt_of_lt_of_le hil (Nat.min_le_left lo ys.length)
    have hiys : i < ys.length := lt_of_lt_of_le hil (Nat.min_le_right lo ys.length)
    have hgd : ys.getD i 0 = t := by
      rw [List.getD_eq_getElem ys 0 hiys, ← hieq, List.getElem_take]
    have := hbefore i hilo
    omega
  have hmidlen : ((ys.take r).drop lo).length = r - lo := by
    rw [List.length_drop, List.length_take, Nat.min_eq_left hr]
  have hmid : ((ys.take r).drop lo).count t = r - lo := by
    rw [← hmidlen]
    apply List.count_eq_length.mpr
    intro b hmem
    obtain ⟨i, hil, hieq⟩ := List.mem_iff_getElem.mp hmem
    rw [hmidlen] at hil
    have hloi : lo + i < r := by omega
    have hiys : lo + i < ys.length := by omega
    have hgd : ys.getD (lo + i) 0 = b := by
      rw [List.getD_eq_getElem ys 0 hiys, ← hieq, List.getElem_drop, List.getElem_take]
    rw [← hgd]
    exact (hblock (lo + i) (Nat.le_add_right lo i) hloi).symm
  rw [hsplit, hdrop, htakesplit, htaketake, hlow, hmid]
  omega

/-- C5: for every timeline sorted ascending by year whose years contain the
target year k > 0 times, the lenient acceptance range of
_compute_insert_position starts at the index of the first occurrence of the
target year, spans right = left + k (k + 1 accepted indices), and the
placement resolution used by confirm_position judges a chosen index correct
exactly when left <= chosenIndex <= right. -/
theorem C5_lenient_range_and_acceptance (timeline : List Card) (track : Card)
    (hs : List.Sorted (· ≤ ·) (yearsOf timeline)) (k : Nat)
    (hk : (yearsOf timeline).count (yearOf track.release.date) = k) (hpos : 0 < k) :
    ∃ left right,
      (_compute_insert_position timeline track .lenient).2 = some (left, right) ∧
      (yearsOf timeline).getD left 0 = yearOf track.release.date ∧
      (∀ j, j < left → (yearsOf timeline).getD j 0 ≠ yearOf track.release.date) ∧
      right = left + k ∧
      (∀ ti : Int, (_resolve_placement .lenient timeline track ti).2 = true ↔
        ((left : Int) ≤ ti ∧ ti ≤ (right : Int))) := by
  have hmem : yearOf track.release.date ∈ yearsOf timeline := by
    have : 0 < (yearsOf timeline).count (yearOf track.release.date) := by omega
    exact List.count_pos_iff.mp this
  have hnonnil : yearsOf timeline ≠ [] := by
    intro h
    rw [h] at hmem
    exact absurd hmem (List.not_mem_nil _)
  have hemp : (yearsOf timeline).isEmpty = false := by
    cases h : (yearsOf timeline).isEmpty
    · rfl
    · exact absurd (List.isEmpty_iff.mp h) hnonnil
  obtain ⟨j, hj, hje⟩ := List.mem_iff_getElem.mp hmem
  have hlb := _lb_loop_spec (yearsOf timeline) (yearOf track.release.date) hs
    ((yearsOf timeline).length - 0) 0 (yearsOf timeline).length rfl (Nat.zero_le _)
    (le_refl _) (fun i hi => absurd hi (Nat.not_lt_zero i))
    (fun i hge hlt => absurd hge (Nat.not_le_of_lt hlt))
  have hjd : (yearsOf timeline).getD j 0 = yearOf track.release.date := by
    rw [List.getD_eq_getElem _ 0 hj, hje]
  have hlolen : _lb_loop (yearsOf timeline) (yearOf track.release.date) 0
      (yearsOf timeline).length < (yearsOf timeline).length := by
    rcases Nat.lt_or_ge (_lb_loop (yearsOf timeline) (yearOf track.release.date) 0
      (yearsOf timeline).length) (yearsOf timeline).length with h | h
    · exact h
    · have := hlb.1 j (lt_of_lt_of_le hj h)
      omega
  have hloj : _lb_loop (yearsOf timeline) (yearOf track.release.date) 0
      (yearsOf timeline).length ≤ j := by
    by_contra hcon
    have := hlb.1 j (Nat.lt_of_not_le hcon)
    omega
  have hlot : (yearsOf timeline).getD (_lb_loop (yearsOf timeline)
      (yearOf track.release.date) 0 (yearsOf timeline).length) 0 =
      yearOf track.release.date := by
    have h1 := hlb.2.1 hlolen
    have h2 := sorted_getD_mono hs hloj hj
    omega
  have hwl := _walk_left_fixed (yearsOf timeline) (yearOf track.release.date)
    (_lb_loop (yearsOf timeline) (yearOf track.release.date) 0 (yearsOf timeline).length)
    hlb.1
  have hwr := _walk_right_spec (yearsOf timeline) (yearOf track.release.date)
    ((yearsOf timeline).length - _lb_loop (yearsOf timeline) (yearOf track.release.date) 0
      (yearsOf timeline).length)
    (_lb_loop (yearsOf timeline) (yearOf track.release.date) 0 (yearsOf timeline).length) rfl
  have hrlen : _walk_right (yearsOf timeline) (yearOf track.release.date)
      (_lb_loop (yearsOf timeline) (yearOf track.release.date) 0 (yearsOf timeline).length) ≤
      (yearsOf timeline).length := by
    have := hwr.2.1
    omega
  have hafter : _walk_right (yearsOf timeline) (yearOf track.release.date)
      (_lb_loop (yearsOf timeline) (yearOf track.release.date) 0 (yearsOf timeline).length) <
      (yearsOf timeline).length →
      yearOf track.release.date < (yearsOf timeline).getD
        (_walk_right (yearsOf timeline) (yearOf track.release.date)
          (_lb_loop (yearsOf timeline) (yearOf track.release.date) 0
            (yearsOf timeline).length)) 0 := by
    intro hlt
    have hge := sorted_getD_mono hs hwr.1 hlt
    have hne := hwr.2.2.2 hlt
    omega
  have hcount := count_of_block (yearsOf timeline) (yearOf track.release.date) hs
    (_lb_loop (yearsOf timeline) (yearOf track.release.date) 0 (yearsOf timeline).length)
    (_walk_right (yearsOf timeline) (yearOf track.release.date)
      (_lb_loop (yearsOf timeline) (yearOf track.release.date) 0 (yearsOf timeline).length))
    hwr.1 hrlen hlb.1 hwr.2.2.1 hafter
  have hcomp : _compute_insert_position timeline track .lenient =
      (_lb_loop (yearsOf timeline) (yearOf track.release.date) 0 (yearsOf timeline).length,
       some (_lb_loop (yearsOf timeline) (yearOf track.release.date) 0
          (yearsOf timeline).length,
        _walk_right (yearsOf timeline) (yearOf track.release.date)
          (_lb_loop (yearsOf timeline) (yearOf track.release.date) 0
            (yearsOf timeline).length))) := by
    simp only [_compute_insert_position, hemp, Bool.false_eq_true, if_false, reduceCtorEq,
      reduceIte, hwl]
  refine ⟨_, _, by rw [hcomp], hlot, ?_, by omega, ?_⟩
  · intro i hi
    have := hlb.1 i hi
    omega
  · intro ti
    simp only [_resolve_placement, hcomp, Option.getD_some, _lenient_resolve,
      Bool.and_eq_true, decide_eq_true_eq]

/-- Witness for C5 at a concrete sorted timeline holding the target year 1995
twice. -/
theorem C5_lenient_range_and_acceptance_witness :
    let timeline := [{ trackId := "a", uri := "u1", name := "n1", artist := "r1",
                       release := { date := "1990-01-01", precision := "day" } },
                     { trackId := "b", uri := "u2", name := "n2", artist := "r2",
                       release := { date := "1995-02-01", precision := "day" } },
                     { trackId := "c", uri := "u3", name := "n3", artist := "r3",
                       release := { date := "1995-07-09", precision := "day" } },
                     { trackId := "d", uri := "u4", name := "n4", artist := "r4",
                       release := { date := "2000-01-01", precision := "day" } }]
    let track : Card := { trackId := "e", uri := "u5", name := "n5", artist := "r5",
                          release := { date := "1995-11-30", precision := "day" } }
    ∃ left right,
      (_compute_insert_position timeline track .lenient).2 = some (left, right) ∧
      (yearsOf timeline).getD left 0 = yearOf track.release.date ∧
      (∀ j, j < left → (yearsOf timeline).getD j 0 ≠ yearOf track.release.date) ∧
      right = left + 2 ∧
      (∀ ti : Int, (_resolve_placement .lenient timeline track ti).2 = true ↔
        ((left : Int) ≤ ti ∧ ti ≤ (right : Int))) :=
  C5_lenient_range_and_acceptance _ _ (by decide) 2 (by decide) (by decide)

/-! ## Properties of the DeckEngine -/

/-- A successful draw picks its card from the available cards. -/
theorem _draw_track_card_mem (room : Room) (k : Nat) (card : Card) (room1 : Room)
    (h : _draw_track_card room k = (some card, room1)) :
    card ∈ _available_deck_cards room := by
  unfold _draw_track_card at h
  by_cases he : (_available_deck_cards room).isEmpty
  · rw [if_pos he] at h
    exact absurd (congrArg Prod.fst h) (by simp)
  · rw [if_neg he] at h
    have hlen : 0 < (_available_deck_cards room).length := by
      cases hl : _available_deck_cards room with
      | nil => rw [hl] at he; exact absurd rfl he
      | cons a l => simp
    have hcard : (_available_deck_cards room).getD
        (k % (_available_deck_cards room).length) default = card := by
      have := congrArg Prod.fst h
      simpa using this
    rw [← hcard, List.getD_eq_getElem _ _ (Nat.mod_lt _ hlen)]
    exact List.getElem_mem _

/-- A deck operation never removes a track id from the discard set. -/
theorem applyDeckOp_discard_mono (room : Room) (op : DeckOp) (tid : String)
    (h : tid ∈ room.deck.discard) : tid ∈ (applyDeckOp room op).deck.discard := by
  cases op with
  | draw k =>
    simp only [applyDeckOp, _draw_track_card]
    split
    · exact h
    · exact h
  | discardTrack t2 =>
    simp only [applyDeckOp]
    exact List.mem_cons_of_mem t2 h

/-- No sequence of deck operations removes a track id from the discard set. -/
theorem applyDeckOps_discard_mono (ops : List DeckOp) : ∀ (room : Room) (tid : String),
    tid ∈ room.deck.discard → tid ∈ (applyDeckOps room ops).deck.discard := by
  induction ops with
  | nil => intro room tid h; exact h
  | cons op rest ih =>
    intro room tid h
    exact ih (applyDeckOp room op) tid (applyDeckOp_discard_mono room op tid h)

/-- C6: a draw from a room's deck never returns a track id that is in the
deck's used set or its discard set; and once a track id is in the discard
set, no draw after any further sequence of draws and discards ever returns
it. -/
theorem C6_draw_never_used_or_discarded :
    (∀ (room : Room) (k : Nat) (card : Card) (room1 : Room),
      _draw_track_card room k = (some card, room1) →
      card.trackId ∉ room.deck.used ∧ card.trackId ∉ room.deck.discard) ∧
    (∀ (room : Room) (tid : String), tid ∈ room.deck.discard →
      ∀ (ops : List DeckOp) (k : Nat) (card : Card) (room1 : Room),
        _draw_track_card (applyDeckOps room ops) k = (some card, room1) →
        card.trackId ≠ tid) := by
  have hfresh : ∀ (room : Room) (k : Nat) (card : Card) (room1 : Room),
      _draw_track_card room k = (some card, room1) →
      card.trackId ∉ room.deck.used ∧ card.trackId ∉ room.deck.discard := by
    intro room k card room1 h
    have hmem := _draw_track_card_mem room k card room1 h
    have hfil := List.of_mem_filter hmem
    simp only [Bool.and_eq_true, Bool.not_eq_true'] at hfil
    constructor
    · intro hu
      have : room.deck.used.contains card.trackId = true := List.elem_eq_true_of_mem hu
      rw [this] at hfil
      exact absurd hfil.1 (by simp)
    · intro hd
      have : room.deck.discard.contains card.trackId = true := List.elem_eq_true_of_mem hd
      rw [this] at hfil
      exact absurd hfil.2 (by simp)
  refine ⟨hfresh, ?_⟩
  intro room tid hdis ops k card room1 h heq
  have hmono := applyDeckOps_discard_mono ops room tid hdis
  have := (hfresh (applyDeckOps room ops) k card room1 h).2
  rw [heq] at this
  exact this hmono

/-- Concrete room for the deck witness: four cards, "t1" already used and
"t2" already discarded. -/
def _c6_room : Room :=
  { code := "ABCD", hostId := "H", players := [], status := .playing,
    turnIndex := 0, turn := none,
    deck := { playlistId := none,
              cards := [{ trackId := "t1", uri := "u1", name := "n1", artist := "a1",
                          release := { date := "1990-01-01", precision := "day" } },
                        { trackId := "t2", uri := "u2", name := "n2", artist := "a2",
                          release := { date := "1991-01-01", precision := "day" } },
                        { trackId := "t3", uri := "u3", name := "n3", artist := "a3",
                          release := { date := "1992-01-01", precision := "day" } },
                        { trackId := "t4", uri := "u4", name := "n4", artist := "a4",
                          release := { date := "1993-01-01", precision := "day" } }],
              used := ["t1"], discard := ["t2"] },
    winnerId := none, tiePolicy := .lenient, targetPoints := 10 }

/-- The deck-witness room after the additional discard of "t3". -/
def _c6_room2 : Room := applyDeckOps _c6_room [DeckOp.discardTrack "t3"]

/-- The card drawn by the deck witness from _c6_room. -/
def _c6_c3 : Card :=
  { trackId := "t3", uri := "u3", name := "n3", artist := "a3",
    release := { date := "1992-01-01", precision := "day" } }

/-- The card drawn by the deck witness from _c6_room2. -/
def _c6_c4 : Card :=
  { trackId := "t4", uri := "u4", name := "n4", artist := "a4",
    release := { date := "1993-01-01", precision := "day" } }

/-- Witness for C6 at the concrete deck: the draw from _c6_room yields "t3",
which is neither used nor discarded, and after the further discard of "t3"
the draw yields "t4", which is not the discarded "t2". -/
theorem C6_draw_never_used_or_discarded_witness :
    ("t2" ∈ _c6_room.deck.discard ∧
      _c6_c3.trackId ∉ _c6_room.deck.used ∧ _c6_c3.trackId ∉ _c6_room.deck.discard) ∧
    _c6_c4.trackId ≠ "t2" := by
  refine ⟨⟨by decide, ?_⟩, ?_⟩
  · exact C6_draw_never_used_or_discarded.1 _c6_room 0 _c6_c3
      { _c6_room with deck := { _c6_room.deck with used := "t3" :: _c6_room.deck.used } }
      (by decide)
  · exact C6_draw_never_used_or_discarded.2 _c6_room "t2" (by decide)
      [DeckOp.discardTrack "t3"] 0 _c6_c4
      { _c6_room2 with deck := { _c6_room2.deck with used := "t4" :: _c6_room2.deck.used } }
      (by decide)

/-! ## Guard behaviour of confirm_position -/

/-- C7: confirm_position rejects with a distinct error, leaving the room
unchanged and broadcasting nothing, whenever a precondition fails: missing
room (404), missing active turn or turn id mismatch (409 Turn mismatch),
wrong player (409), phase outside playing/placing (409), playback not
started (409), no drawn card (409), or an acting host identity (403); the
seven error responses are pairwise distinct. -/
theorem C7_confirm_precondition_errors (room : Room) (p : ConfirmPositionPayload) :
    (confirm_position none p = (.text 404 "Room not found", none, [])) ∧
    (room.turn = none →
      confirm_position (some room) p = (.text 409 "Turn mismatch", some room, [])) ∧
    (∀ turn, room.turn = some turn → turn.turnId ≠ p.turnId →
      confirm_position (some room) p = (.text 409 "Turn mismatch", some room, [])) ∧
    (∀ turn, room.turn = some turn → turn.turnId = p.turnId →
      turn.currentPlayerId ≠ p.playerId →
      confirm_position (some room) p = (.text 409 "Wrong player", some room, [])) ∧
    (∀ turn, room.turn = some turn → turn.turnId = p.turnId →
      turn.currentPlayerId = p.playerId →
      ¬(turn.phase = .playing ∨ turn.phase = .placing) →
      confirm_position (some room) p =
        (.text 409 "Turn not accepting placements", some room, [])) ∧
    (∀ turn, room.turn = some turn → turn.turnId = p.turnId →
      turn.currentPlayerId = p.playerId →
      (turn.phase = .playing ∨ turn.phase = .placing) → turn.play_started = false →
      confirm_position (some room) p = (.text 409 "Play not started", some room, [])) ∧
    (∀ turn, room.turn = some turn → turn.turnId = p.turnId →
      turn.currentPlayerId = p.playerId →
      (turn.phase = .playing ∨ turn.phase = .placing) → turn.play_started = true →
      turn.drawn = none →
      confirm_position (some room) p = (.text 409 "No drawn card", some room, [])) ∧
    (∀ turn card player, room.turn = some turn → turn.turnId = p.turnId →
      turn.currentPlayerId = p.playerId →
      (turn.phase = .playing ∨ turn.phase = .placing) → turn.play_started = true →
      turn.drawn = some card → _get_player room p.playerId = some player →
      (player.is_host || player.id == room.hostId || _upper player.id == "HOST".toList)
        = true →
      confirm_position (some room) p = (.text 403 "Host cannot play", some room, [])) ∧
    List.Pairwise (· ≠ ·)
      ([.text 404 "Room not found", .text 409 "Turn mismatch", .text 409 "Wrong player",
        .text 409 "Turn not accepting placements", .text 409 "Play not started",
        .text 409 "No drawn card", .text 403 "Host cannot play"] : List HTTPResponse) := by
  refine ⟨rfl, ?_, ?_, ?_, ?_, ?_, ?_, ?_, by decide⟩
  · intro h
    simp [confirm_position, h]
  · intro turn hturn hne
    simp [confirm_position, hturn, hne]
  · intro turn hturn heq hne
    simp [confirm_position, hturn, heq, hne]
  · intro turn hturn heq heq2 hph
    simp [confirm_position, hturn, heq, heq2, hph]
  · intro turn hturn heq heq2 hph hps
    rcases hph with h | h <;> simp [confirm_position, hturn, heq, heq2, h, hps]
  · intro turn hturn heq heq2 hph hps hdr
    rcases hph with h | h <;> simp [confirm_position, hturn, heq, heq2, h, hps, hdr]
  · intro turn card player hturn heq heq2 hph hps hdr hget hhost
    rcases hph with h | h <;>
      simp [confirm_position, hturn, heq, heq2, h, hps, hdr, hget, hhost] <;>
      (intro h1 h2 h3; simp [h1, h2, h3] at hhost)

/-- Concrete room for the confirm-guard witness: an active turn with id
"AAAA". -/
def _c7_room : Room :=
  { code := "ROOM", hostId := "H", players := [], status := .playing, turnIndex := 0,
    turn := some { turnId := "AAAA", currentPlayerId := "p1", drawn := none,
                   phase := .playing, play_started := false, last_play_uri := none },
    deck := { playlistId := none, cards := [], used := [], discard := [] },
    winnerId := none, tiePolicy := .lenient, targetPoints := 10 }

/-- The confirm-guard witness payload, whose turn id does not match. -/
def _c7_payload : ConfirmPositionPayload :=
  { roomCode := "ROOM", playerId := "p1", turnId := "BBBB", targetIndex := 0 }

/-- Witness for C7: the turn-mismatch precondition at a concrete room is
rejected with the Turn mismatch conflict and the room is left unchanged. -/
theorem C7_confirm_precondition_errors_witness :
    confirm_position (some _c7_room) _c7_payload =
      (.text 409 "Turn mismatch", some _c7_room, []) :=
  (C7_confirm_precondition_errors _c7_room _c7_payload).2.2.1
    { turnId := "AAAA", currentPlayerId := "p1", drawn := none, phase := .playing,
      play_started := false, last_play_uri := none } rfl (by decide)

/-! ## Behaviour of next_turn -/

/-- C8: next_turn answers no-content and changes nothing when the room is
already finished; it answers a 409 conflict and changes nothing when there
is no active turn or the active turn's phase is not result; and in a
non-finished room it answers no-content exactly when the active turn is in
the result phase. -/
theorem C8_next_turn_conditions (room : Room) (turnId : String) (k : Nat) :
    (room.status = .finished → next_turn (some room) turnId k = (.noContent, some room, [])) ∧
    (room.status ≠ .finished → room.turn = none →
      next_turn (some room) turnId k = (.text 409 "Turn not completed", some room, [])) ∧
    (∀ t, room.status ≠ .finished → room.turn = some t → t.phase ≠ .result →
      next_turn (some room) turnId k = (.text 409 "Turn not completed", some room, [])) ∧
    (∀ t, room.status ≠ .finished → room.turn = some t → t.phase = .result →
      (next_turn (some room) turnId k).1 = .noContent) := by
  refine ⟨?_, ?_, ?_, ?_⟩
  · intro h
    simp [next_turn, h]
  · intro h hturn
    simp [next_turn, h, hturn]
  · intro t h hturn hph
    simp [next_turn, h, hturn, hph]
  · intro t h hturn hph
    simp [next_turn, h, hturn, hph]

/-- Concrete finished room for the next_turn witness. -/
def _c8_room : Room :=
  { code := "ROOM", hostId := "H", players := [], status := .finished, turnIndex := 0,
    turn := none, deck := { playlistId := none, cards := [], used := [], discard := [] },
    winnerId := some "p1", tiePolicy := .lenient, targetPoints := 10 }

/-- Witness for C8: next_turn on a finished room is an idempotent
no-content. -/
theorem C8_next_turn_conditions_witness :
    next_turn (some _c8_room) "TTTT" 0 = (.noContent, some _c8_room, []) :=
  (C8_next_turn_conditions _c8_room "TTTT" 0).1 (by decide)

/-! ## The success path of confirm_position -/

/-- When every guard passes, confirm_position runs the resolved placement
body. -/
theorem confirm_position_passes_guards (room : Room) (p : ConfirmPositionPayload)
    (turn : TurnState) (card : Card) (player : Player)
    (hturn : room.turn = some turn) (h2 : turn.turnId = p.turnId)
    (h3 : turn.currentPlayerId = p.playerId)
    (h4 : turn.phase = .playing ∨ turn.phase = .placing)
    (h5 : turn.play_started = true) (h6 : turn.drawn = some card)
    (h7 : _get_player room p.playerId = some player)
    (h8 : (player.is_host || player.id == room.hostId ||
      _upper player.id == "HOST".toList) = false) :
    confirm_position (some room) p = _confirm_resolved room turn card player p := by
  rcases h4 with h | h <;>
    simp [confirm_position, hturn, h2, h3, h, h5, h6, h7, h8] <;>
    (intro hcon
     rcases hcon with (h1 | h1) | h1 <;> simp [h1] at h8)

/-- The final insertion index never exceeds the timeline length. -/
theorem _placement_fi_le (tie_policy : TiePolicy) (timeline : List Card) (card : Card)
    (targetIndex : Int) : _placement_fi tie_policy timeline card targetIndex ≤
      timeline.length := by
  simp only [_placement_fi]
  omega

/-- Inserting at an in-bounds index grows the timeline by one card, so the
recomputed score is the old length plus one. -/
theorem _placed_player_score (player : Player) (card : Card) (fi : Nat)
    (h : fi ≤ player.timeline.length) :
    (_placed_player player card fi).score = player.timeline.length + 1 ∧
      (_placed_player player card fi).timeline.length = player.timeline.length + 1 := by
  have hlen : (player.timeline.insertIdx fi card).length = player.timeline.length + 1 := by
    rw [List.length_insertIdx]
    simp [h]
  exact ⟨by simp only [_placed_player, hlen], by simp only [_placed_player, hlen]⟩

/-- Updating a player preserves lookup: after replacing the found player, the
lookup returns the replacement. -/
theorem _get_player_after_update (players : List Player) (pid : String) (q p1 : Player)
    (hfind : players.find? (fun x => x.id == pid) = some q) (hid : p1.id = q.id) :
    (_update_player players pid p1).find? (fun x => x.id == pid) = some p1 := by
  induction players with
  | nil => exact absurd hfind (by simp)
  | cons r rest ih =>
    by_cases hr : (r.id == pid) = true
    · have hru : (r :: rest).find? (fun x => x.id == pid) = some r :=
        List.find?_cons_of_pos rest hr
      rw [hru] at hfind
      have hq : r = q := by injection hfind
      subst hq
      simp only [_update_player, if_pos hr]
      have hp1 : (p1.id == pid) = true := by rw [hid]; exact hr
      exact List.find?_cons_of_pos rest hp1
    · have hru : (r :: rest).find? (fun x => x.id == pid) =
          rest.find? (fun x => x.id == pid) :=
        List.find?_cons_of_neg rest hr
      rw [hru] at hfind
      simp only [_update_player, if_neg hr]
      have hru2 : (r :: _update_player rest pid p1).find? (fun x => x.id == pid) =
          (_update_player rest pid p1).find? (fun x => x.id == pid) :=
        List.find?_cons_of_neg _ hr
      rw [hru2]
      exact ih hfind

/-- Components of the resolved body on a correct placement. -/
theorem _confirm_resolved_correct_parts (room : Room) (turn : TurnState) (card : Card)
    (player : Player) (p : ConfirmPositionPayload)
    (h9 : (_resolve_placement room.tiePolicy player.timeline card p.targetIndex).2 = true) :
    (_confirm_resolved room turn card player p).1 =
      .jsonConfirm true
        (some (_placed_player player card
          (_placement_fi room.tiePolicy player.timeline card p.targetIndex)).score)
        (some (_placement_fi room.tiePolicy player.timeline card p.targetIndex)) ∧
    (_confirm_resolved room turn card player p).2.1 =
      some (_room_after_correct room turn card player p) := by
  constructor <;> simp only [_confirm_resolved, h9, if_true]

/-- C10: for every integer targetIndex, the lenient clamp keeps the chosen
index inside the acceptance range, and a correct placement always inserts at
an index clamped to the timeline bounds, so the insertion succeeds: the
response reports the incremented score and the player's timeline grows by
exactly one card. -/
theorem C10_confirm_insertion_in_bounds (room : Room) (p : ConfirmPositionPayload)
    (turn : TurnState) (card : Card) (player : Player)
    (hturn : room.turn = some turn) (h2 : turn.turnId = p.turnId)
    (h3 : turn.currentPlayerId = p.playerId)
    (h4 : turn.phase = .playing ∨ turn.phase = .placing)
    (h5 : turn.play_started = true) (h6 : turn.drawn = some card)
    (h7 : _get_player room p.playerId = some player)
    (h8 : (player.is_host || player.id == room.hostId ||
      _upper player.id == "HOST".toList) = false)
    (h9 : (_resolve_placement room.tiePolicy player.timeline card p.targetIndex).2 = true) :
    (∀ (left right : Nat) (ti : Int), left ≤ right →
      (left : Int) ≤ (_lenient_resolve left right ti).1 ∧
        (_lenient_resolve left right ti).1 ≤ (right : Int)) ∧
    ∃ (fi : Nat) (room1 : Room) (player1 : Player),
      fi ≤ player.timeline.length ∧
      (confirm_position (some room) p).1 =
        .jsonConfirm true (some (player.timeline.length + 1)) (some fi) ∧
      (confirm_position (some room) p).2.1 = some room1 ∧
      _get_player room1 p.playerId = some player1 ∧
      player1.timeline.length = player.timeline.length + 1 := by
  constructor
  · intro left right ti hlr
    simp only [_lenient_resolve]
    by_cases hti : ti < (left : Int)
    · rw [if_pos hti]
      constructor <;> omega
    · rw [if_neg hti]
      by_cases hti2 : (right : Int) < ti
      · rw [if_pos hti2]
        constructor <;> omega
      · rw [if_neg hti2]
        constructor <;> omega
  · have hguard := confirm_position_passes_guards room p turn card player hturn h2 h3 h4
      h5 h6 h7 h8
    have hparts := _confirm_resolved_correct_parts room turn card player p h9
    have hle := _placement_fi_le room.tiePolicy player.timeline card p.targetIndex
    have hscore := _placed_player_score player card
      (_placement_fi room.tiePolicy player.timeline card p.targetIndex) hle
    refine ⟨_placement_fi room.tiePolicy player.timeline card p.targetIndex,
      _room_after_correct room turn card player p,
      _placed_player player card
        (_placement_fi room.tiePolicy player.timeline card p.targetIndex),
      hle, ?_, ?_, ?_, hscore.2⟩
    · rw [hguard, hparts.1, hscore.1]
    · rw [hguard, hparts.2]
    · have hplayers : (_room_after_correct room turn card player p).players =
          _update_player room.players p.playerId (_placed_player player card
            (_placement_fi room.tiePolicy player.timeline card p.targetIndex)) := by
        simp only [_room_after_correct]
        split <;> rfl
      simp only [_get_player, hplayers]
      simp only [_get_player] at h7
      exact _get_player_after_update room.players p.playerId player
        (_placed_player player card
          (_placement_fi room.tiePolicy player.timeline card p.targetIndex)) h7 rfl

/-- Concrete drawn card (year 1995) for the insertion-bounds witness. -/
def _c10_card : Card :=
  { trackId := "tX", uri := "uX", name := "nX", artist := "aX",
    release := { date := "1995-05-05", precision := "day" } }

/-- Concrete acting player for the insertion-bounds witness. -/
def _c10_player : Player :=
  { id := "p1", name := "Ann", seat := 0, score := 2, is_host := false,
    timeline := [{ trackId := "t1", uri := "u1", name := "n1", artist := "a1",
                   release := { date := "1990-01-01", precision := "day" } },
                 { trackId := "t2", uri := "u2", name := "n2", artist := "a2",
                   release := { date := "1995-01-01", precision := "day" } }] }

/-- Concrete active turn for the insertion-bounds witness. -/
def _c10_turn : TurnState :=
  { turnId := "TURN", currentPlayerId := "p1", drawn := some _c10_card,
    phase := .playing, play_started := true, last_play_uri := none }

/-- Concrete room for the insertion-bounds witness. -/
def _c10_room : Room :=
  { code := "ROOM", hostId := "H", players := [_c10_player], status := .playing,
    turnIndex := 0, turn := some _c10_turn,
    deck := { playlistId := none, cards := [_c10_card], used := ["tX"], discard := [] },
    winnerId := none, tiePolicy := .lenient, targetPoints := 10 }

/-- Concrete payload for the insertion-bounds witness: the chosen index 2 is
the right boundary of the acceptance range and equals the timeline length. -/
def _c10_payload : ConfirmPositionPayload :=
  { roomCode := "ROOM", playerId := "p1", turnId := "TURN", targetIndex := 2 }

/-- The placement resolution of the insertion-bounds witness: index 2,
correct. -/
theorem _c10_resolve_eq :
    _resolve_placement _c10_room.tiePolicy _c10_player.timeline _c10_card
      _c10_payload.targetIndex = (2, true) := by
  have hy : yearsOf _c10_player.timeline = [1990, 1995] := by decide
  have ht2 : yearOf _c10_card.release.date = 1995 := by decide
  show _resolve_placement .lenient _c10_player.timeline _c10_card 2 = (2, true)
  simp [_resolve_placement, _compute_insert_position, hy, ht2, _lb_loop, _walk_left,
    _walk_right, _lenient_resolve]

/-- Witness for C10 at the concrete room: the lenient clamp keeps the
out-of-range index -5 inside [1, 2], and the correct placement at index 2
inserts within bounds and grows the timeline to three cards. -/
theorem C10_confirm_insertion_in_bounds_witness :
    ((1 : Int) ≤ (_lenient_resolve 1 2 (-5)).1 ∧ (_lenient_resolve 1 2 (-5)).1 ≤ (2 : Int)) ∧
    ∃ (fi : Nat) (room1 : Room) (player1 : Player),
      fi ≤ _c10_player.timeline.length ∧
      (confirm_position (some _c10_room) _c10_payload).1 =
        .jsonConfirm true (some (_c10_player.timeline.length + 1)) (some fi) ∧
      (confirm_position (some _c10_room) _c10_payload).2.1 = some room1 ∧
      _get_player room1 _c10_payload.playerId = some player1 ∧
      player1.timeline.length = _c10_player.timeline.length + 1 := by
  have h := C10_confirm_insertion_in_bounds _c10_room _c10_payload _c10_turn _c10_card
    _c10_player (by decide) (by decide) (by decide) (Or.inl (by decide)) (by decide)
    (by decide) (by decide) (by decide) (by rw [_c10_resolve_eq])
  exact ⟨h.1 1 2 (-5) (by decide), h.2⟩

/-! ## The win path of confirm_position -/

/-- The placement does not change the player's id. -/
theorem _placed_player_id (player : Player) (card : Card) (fi : Nat) :
    (_placed_player player card fi).id = player.id := rfl

/-- The placement does not change the player's host flag. -/
theorem _placed_player_is_host (player : Player) (card : Card) (fi : Nat) :
    (_placed_player player card fi).is_host = player.is_host := rfl

/-- The gameOver ranking is sorted by score descending. -/
theorem _ranking_sorted (players : List Player) :
    List.Sorted (fun a b => b.score ≤ a.score) (_ranking players) := by
  have h : (players.mergeSort (fun a b => decide (b.score ≤ a.score))).Pairwise
      (fun a b => decide (b.score ≤ a.score) = true) :=
    List.sorted_mergeSort
      (fun a b c hab hbc => by
        simp only [decide_eq_true_eq] at hab hbc ⊢
        omega)
      (fun a b => by
        simp only [Bool.or_eq_true, decide_eq_true_eq]
        omega)
      players
  exact h.imp (fun hx => by simpa using hx)

/-- The gameOver ranking is a permutation of the players it sorts. -/
theorem _ranking_perm (players : List Player) : (_ranking players).Perm players :=
  List.mergeSort_perm players _

/-- C9: when a correct placement raises a non-host player's score to the
room's targetPoints, confirm_position records that player as the winner,
moves the room to postGame, and broadcasts a gameOver event whose ranking is
a score-descending permutation of the room's players, followed immediately
by a winnerDeciding event naming the winner. -/
theorem C9_win_condition_broadcasts (room : Room) (p : ConfirmPositionPayload)
    (turn : TurnState) (card : Card) (player : Player)
    (hturn : room.turn = some turn) (h2 : turn.turnId = p.turnId)
    (h3 : turn.currentPlayerId = p.playerId)
    (h4 : turn.phase = .playing ∨ turn.phase = .placing)
    (h5 : turn.play_started = true) (h6 : turn.drawn = some card)
    (h7 : _get_player room p.playerId = some player)
    (h8 : (player.is_host || player.id == room.hostId ||
      _upper player.id == "HOST".toList) = false)
    (h9 : (_resolve_placement room.tiePolicy player.timeline card p.targetIndex).2 = true)
    (hwin : room.targetPoints ≤ (player.timeline.length + 1 : Int)) :
    ∃ (room1 : Room) (ranking : List Player),
      (confirm_position (some room) p).2.1 = some room1 ∧
      room1.winnerId = some player.id ∧
      room1.status = .postGame ∧
      (confirm_position (some room) p).2.2.take 2 =
        [Event.gameOver ranking player.id room.targetPoints,
         Event.winnerDeciding player.id] ∧
      ranking.Perm room1.players ∧
      List.Sorted (fun a b => b.score ≤ a.score) ranking := by
  have hguard := confirm_position_passes_guards room p turn card player hturn h2 h3 h4
    h5 h6 h7 h8
  have hparts := _confirm_resolved_correct_parts room turn card player p h9
  have hle := _placement_fi_le room.tiePolicy player.timeline card p.targetIndex
  have hscore := _placed_player_score player card
    (_placement_fi room.tiePolicy player.timeline card p.targetIndex) hle
  have h8' := h8
  simp only [Bool.or_eq_false_iff] at h8'
  obtain ⟨⟨hh1, hh2⟩, hh3⟩ := h8'
  have hw : _win_check room (_placed_player player card
      (_placement_fi room.tiePolicy player.timeline card p.targetIndex)) = true := by
    have hcast : room.targetPoints ≤ ((player.timeline.length + 1 : Nat) : Int) := by
      push_cast
      exact hwin
    have hh3a : ¬ _upper player.id = "HOST".toList := by simpa using hh3
    have hlist : "HOST".toList = ['H', 'O', 'S', 'T'] := rfl
    simp only [_win_check, _placed_player_id, _placed_player_is_host, hscore.1]
    simp [hh1, hh2, bne]
    constructor
    · exact hwin
    · rw [← hlist]
      exact hh3a
  refine ⟨_room_after_correct room turn card player p,
    _ranking (_update_player room.players p.playerId (_placed_player player card
      (_placement_fi room.tiePolicy player.timeline card p.targetIndex))), ?_, ?_, ?_, ?_,
    ?_, ?_⟩
  · rw [hguard, hparts.2]
  · simp [_room_after_correct, hw, _placed_player_id]
  · simp [_room_after_correct, hw]
  · rw [hguard]
    simp only [_confirm_resolved, h9, if_true, hw, _placed_player_id, List.cons_append,
      List.nil_append]
    simp [List.take]
  · have hplayers : (_room_after_correct room turn card player p).players =
        _update_player room.players p.playerId (_placed_player player card
          (_placement_fi room.tiePolicy player.timeline card p.targetIndex)) := by
      simp only [_room_after_correct]
      split <;> rfl
    rw [hplayers]
    exact _ranking_perm _
  · exact _ranking_sorted _

/-- Concrete drawn card for the win witness. -/
def _c9_card : Card :=
  { trackId := "tW", uri := "uW", name := "nW", artist := "aW",
    release := { date := "1993-03-03", precision := "day" } }

/-- Concrete acting player for the win witness: two cards, one point from the
target. -/
def _c9_player : Player :=
  { id := "p2", name := "Bo", seat := 1, score := 2, is_host := false,
    timeline := [{ trackId := "t1", uri := "u1", name := "n1", artist := "a1",
                   release := { date := "1990-01-01", precision := "day" } },
                 { trackId := "t2", uri := "u2", name := "n2", artist := "a2",
                   release := { date := "1995-01-01", precision := "day" } }] }

/-- Concrete room for the win witness: targetPoints 3. -/
def _c9_room : Room :=
  { code := "ROOM", hostId := "H",
    players := [{ id := "p1", name := "Ann", seat := 0, score := 1, is_host := false,
                  timeline := [{ trackId := "t0", uri := "u0", name := "n0", artist := "a0",
                                 release := { date := "1980-01-01", precision := "day" } }] },
                _c9_player],
    status := .placing, turnIndex := 1,
    turn := some { turnId := "TW", currentPlayerId := "p2", drawn := some _c9_card,
                   phase := .placing, play_started := true, last_play_uri := none },
    deck := { playlistId := none, cards := [_c9_card], used := ["tW"], discard := [] },
    winnerId := none, tiePolicy := .lenient, targetPoints := 3 }

/-- Concrete payload for the win witness: index 1 is inside the acceptance
range for year 1993 between 1990 and 1995. -/
def _c9_payload : ConfirmPositionPayload :=
  { roomCode := "ROOM", playerId := "p2", turnId := "TW", targetIndex := 1 }

/-- The placement resolution of the win witness: index 1, correct. -/
theorem _c9_resolve_eq :
    _resolve_placement _c9_room.tiePolicy _c9_player.timeline _c9_card
      _c9_payload.targetIndex = (1, true) := by
  have hy : yearsOf _c9_player.timeline = [1990, 1995] := by decide
  have ht2 : yearOf _c9_card.release.date = 1993 := by decide
  show _resolve_placement .lenient _c9_player.timeline _c9_card 1 = (1, true)
  simp [_resolve_placement, _compute_insert_position, hy, ht2, _lb_loop, _walk_left,
    _walk_right, _lenient_resolve]

/-- Witness for C9 at the concrete room: the correct placement brings p2 to
the target of 3 points, so the room records p2 as winner, moves to postGame
and broadcasts gameOver followed by winnerDeciding. -/
theorem C9_win_condition_broadcasts_witness :
    ∃ (room1 : Room) (ranking : List Player),
      (confirm_position (some _c9_room) _c9_payload).2.1 = some room1 ∧
      room1.winnerId = some _c9_player.id ∧
      room1.status = .postGame ∧
      (confirm_position (some _c9_room) _c9_payload).2.2.take 2 =
        [Event.gameOver ranking _c9_player.id _c9_room.targetPoints,
         Event.winnerDeciding _c9_player.id] ∧
      ranking.Perm room1.players ∧
      List.Sorted (fun a b => b.score ≤ a.score) ranking :=
  C9_win_condition_broadcasts _c9_room _c9_payload
    { turnId := "TW", currentPlayerId := "p2", drawn := some _c9_card,
      phase := .placing, play_started := true, last_play_uri := none }
    _c9_card _c9_player (by decide) (by decide) (by decide) (Or.inr (by decide))
    (by decide) (by decide) (by decide) (by decide) (by rw [_c9_resolve_eq]) (by decide)

/-! ## The turn:play payload -/

/-- The deck card of the turn:play evaluation. -/
def _c1_card : Card :=
  { trackId := "tS", uri := "spotify:track:tS", name := "Song", artist := "Artist",
    release := { date := "1999-05-10", precision := "day" } }

/-- The room of the turn:play evaluation: one non-host player, one deck
card. -/
def _c1_room : Room :=
  { code := "ROOM", hostId := "H",
    players := [{ id := "p1", name := "Ann", seat := 0, score := 1, is_host := false,
                  timeline := [] }],
    status := .playing, turnIndex := 0, turn := none,
    deck := { playlistId := none, cards := [_c1_card], used := [], discard := [] },
    winnerId := none, tiePolicy := .lenient, targetPoints := 10 }

/-- C1: beginning a turn broadcasts turn:play whose song payload carries the
drawn card's full release, date included, while the new turn is still in the
playing phase — the date is not withheld until the result phase.  This
evaluates _begin_turn at a concrete room and exhibits the release date
"1999-05-10" inside the turn:play event. -/
theorem C1_turn_play_sends_release_date :
    (_begin_turn _c1_room "T1T1T1T1" 0).2 =
      [Event.turnBegin "T1T1T1T1" "p1",
       Event.turnPlay "T1T1T1T1" "p1"
         { trackId := "tS", uri := "spotify:track:tS",
           release := { date := "1999-05-10", precision := "day" } }] ∧
    ((_begin_turn _c1_room "T1T1T1T1" 0).1.turn.map TurnState.phase =
      some Phase.playing) := by
  decide

/-! ## create_room -/

/-- A pre-existing room stored under the code "AAAA". -/
def _c2_old_room : Room :=
  { _fresh_room "AAAA" "hostOld" 50 with status := .playing }

/-- Counterexample for C2: create_room performs no collision-retry.  When the
four random picks produce the code "AAAA" of an existing room, the
assignment rooms[code] = room replaces that room's state. -/
theorem C2_create_room_collision_counterexample :
    (create_room [("AAAA", _c2_old_room)] (some "hostNew") 10 (fun _ => 0) 0).2 =
      [("AAAA", _fresh_room "AAAA" "hostNew" 10)] ∧
    _rooms_get (create_room [("AAAA", _c2_old_room)] (some "hostNew") 10
      (fun _ => 0) 0).2 "AAAA" ≠ some _c2_old_room := by
  decide

/-- Looking up the assigned code after a rooms assignment yields the
assigned room, whether the code was fresh or replaced an existing binding. -/
theorem _rooms_get_set (rooms : List (String × Room)) (code : String) (room : Room) :
    _rooms_get (_rooms_set rooms code room) code = some room := by
  induction rooms with
  | nil => simp [_rooms_set, _rooms_get]
  | cons kv rest ih =>
    cases h1 : (kv.1 == code) with
    | true => simp [_rooms_set, h1, _rooms_get]
    | false =>
      simp only [_rooms_set, h1, Bool.false_eq_true, if_false]
      have hskip : (kv :: _rooms_set rest code room).find? (fun x => x.1 == code) =
          (_rooms_set rest code room).find? (fun x => x.1 == code) :=
        List.find?_cons_of_neg _ (by simp [h1])
      simp only [_rooms_get] at ih ⊢
      rw [hskip]
      exact ih

/-- A non-colliding assignment appends the new binding, keeping every
existing room in place. -/
theorem _rooms_set_fresh (rooms : List (String × Room)) (code : String) (room : Room)
    (h : rooms.any (fun kv => kv.1 == code) = false) :
    _rooms_set rooms code room = rooms ++ [(code, room)] := by
  induction rooms with
  | nil => simp [_rooms_set]
  | cons kv rest ih =>
    simp only [List.any_cons, Bool.or_eq_false_iff] at h
    simp [_rooms_set, h.1, ih h.2]

/-- C2 (amended): the generated room code has four characters, but no
collision-retry is performed: the fresh room is stored under the generated
code unconditionally, so a colliding code replaces the existing room's
state, and only a non-colliding code leaves every existing room in place
(appending the new one). -/
theorem C2_create_room_stores_under_generated_code (rooms : List (String × Room))
    (hostId : Option String) (targetPoints : Int) (pick : Nat → Nat) (randHost : Nat)
    (hvalid : 1 ≤ targetPoints ∧ targetPoints ≤ 100) :
    (code4 pick).length = 4 ∧
    (create_room rooms hostId targetPoints pick randHost).2 =
      _rooms_set rooms (code4 pick)
        (_fresh_room (code4 pick)
          (hostId.getD ("host-" ++ toString (1000 + randHost % 9000))) targetPoints) ∧
    _rooms_get (create_room rooms hostId targetPoints pick randHost).2 (code4 pick) =
      some (_fresh_room (code4 pick)
        (hostId.getD ("host-" ++ toString (1000 + randHost % 9000))) targetPoints) ∧
    (rooms.any (fun kv => kv.1 == code4 pick) = false →
      (create_room rooms hostId targetPoints pick randHost).2 =
        rooms ++ [(code4 pick,
          _fresh_room (code4 pick)
            (hostId.getD ("host-" ++ toString (1000 + randHost % 9000))) targetPoints)]) := by
  have hlen : (code4 pick).length = 4 := by
    simp [code4, String.length]
  have hcr : (create_room rooms hostId targetPoints pick randHost).2 =
      _rooms_set rooms (code4 pick)
        (_fresh_room (code4 pick)
          (hostId.getD ("host-" ++ toString (1000 + randHost % 9000))) targetPoints) := by
    simp [create_room, hvalid.1, hvalid.2]
  refine ⟨hlen, hcr, ?_, ?_⟩
  · rw [hcr]
    exact _rooms_get_set rooms (code4 pick) _
  · intro hfresh
    rw [hcr]
    exact _rooms_set_fresh rooms (code4 pick) _ hfresh

/-- Witness for the amended C2 at a concrete rooms map whose only code
collides with the generated one. -/
theorem C2_create_room_stores_under_generated_code_witness :
    (code4 (fun _ => 0)).length = 4 ∧
    (create_room [("AAAA", _c2_old_room)] (some "hostNew") 10 (fun _ => 0) 0).2 =
      _rooms_set [("AAAA", _c2_old_room)] (code4 (fun _ => 0))
        (_fresh_room (code4 (fun _ => 0))
          ((some "hostNew").getD ("host-" ++ toString (1000 + 0 % 9000))) 10) ∧
    _rooms_get (create_room [("AAAA", _c2_old_room)] (some "hostNew") 10
        (fun _ => 0) 0).2 (code4 (fun _ => 0)) =
      some (_fresh_room (code4 (fun _ => 0))
        ((some "hostNew").getD ("host-" ++ toString (1000 + 0 % 9000))) 10) ∧
    (([("AAAA", _c2_old_room)] : List (String × Room)).any
        (fun kv => kv.1 == code4 (fun _ => 0)) = false →
      (create_room [("AAAA", _c2_old_room)] (some "hostNew") 10 (fun _ => 0) 0).2 =
        [("AAAA", _c2_old_room)] ++ [(code4 (fun _ => 0),
          _fresh_room (code4 (fun _ => 0))
            ((some "hostNew").getD ("host-" ++ toString (1000 + 0 % 9000))) 10)]) :=
  C2_create_room_stores_under_generated_code [("AAAA", _c2_old_room)] (some "hostNew")
    10 (fun _ => 0) 0 (by decide)

/-! ## The start handler under deck shortage -/

/-- Resetting a player does not change whether it is a host entry. -/
theorem _reset_player_host_flag (hostId : String) (p : Player) :
    _is_host_entry hostId (_reset_player hostId p) = _is_host_entry hostId p := by
  simp only [_reset_player]
  split
  · rfl
  · rfl

/-- Resetting a non-host player empties its timeline. -/
theorem _reset_player_timeline (hostId : String) (p : Player)
    (h : _is_host_entry hostId p = false) : (_reset_player hostId p).timeline = [] := by
  simp [_reset_player, h]

/-- Resetting a player whose timeline is already empty and score already
zero does nothing. -/
theorem _reset_player_eq_self (hostId : String) (p : Player)
    (htl : p.timeline = []) (hsc : p.score = 0) : _reset_player hostId p = p := by
  simp only [_reset_player]
  split
  · rfl
  · cases p
    simp_all

/-- The actual-players view of a cleaned room is its full players list. -/
theorem actual_players_cleanup (room : Room) :
    actual_players (_cleanup_host_entries room) = (_cleanup_host_entries room).players := by
  simp only [actual_players, _cleanup_host_entries]
  exact List.filter_eq_self.mpr (fun a ha => (List.mem_filter.mp ha).2)

/-- When the deck holds fewer fresh cards than there are players, the
opening deal fails with the shortage error before any draw: nothing is
marked used and no timeline is touched. -/
theorem _deal_opening_cards_shortage (room : Room) (picks : List Nat)
    (res : Except String Room) (heq : _deal_opening_cards room picks = res)
    (hclean : room.players.filter (fun p => !(_is_host_entry room.hostId p)) = room.players)
    (hne : room.players.isEmpty = false)
    (htl : ∀ q ∈ room.players, q.timeline = [])
    (hused : room.deck.used = []) (hdisc : room.deck.discard = [])
    (hshort : room.deck.cards.length < room.players.length) :
    res = .error "Not enough tracks to deal opening cards" := by
  subst heq
  have hany : (room.players.any fun p => !p.timeline.isEmpty) = false := by
    rw [List.any_eq_false]
    intro q hq
    simp [htl q hq]
  have hav : room.deck.cards.filter
      (fun card => !(room.deck.used.contains card.trackId)
                && !(room.deck.discard.contains card.trackId)) = room.deck.cards := by
    rw [hused, hdisc]
    apply List.filter_eq_self.mpr
    intro a _
    simp
  simp only [_deal_opening_cards, _cleanup_host_entries, _available_deck_cards, hclean,
    hne, hany, hav]
  simp [hshort]

/-- The card of the shortage counterexample's joined timeline. -/
def _c3_timeline_card : Card :=
  { trackId := "tJ", uri := "uJ", name := "nJ", artist := "aJ",
    release := { date := "1985-01-01", precision := "day" } }

/-- The single loaded deck card of the shortage counterexample. -/
def _c3_deck_card : Card :=
  { trackId := "tD", uri := "uD", name := "nD", artist := "aD",
    release := { date := "1991-01-01", precision := "day" } }

/-- The shortage counterexample room: a lobby with two non-host players, one
of which joined carrying a non-empty timeline. -/
def _c3_room : Room :=
  { code := "ROOM", hostId := "H",
    players := [{ id := "p1", name := "Ann", seat := 0, score := 1, is_host := false,
                  timeline := [_c3_timeline_card] },
                { id := "p2", name := "Bo", seat := 1, score := 0, is_host := false,
                  timeline := [] }],
    status := .lobby, turnIndex := 0, turn := none,
    deck := { playlistId := none, cards := [], used := [], discard := [] },
    winnerId := none, tiePolicy := .lenient, targetPoints := 10 }

/-- Counterexample for C3: starting with one loaded card and two players
fails and keeps the room in the lobby, but p1's timeline is not left
untouched — the start handler clears every non-host timeline before the
deal check, so the failed start mutates it from one card to empty. -/
theorem C3_start_shortage_counterexample :
    (handle_start _c3_room "H" none none [_c3_deck_card] [] "TTTT" 0).1.status =
      RoomStatus.lobby ∧
    (handle_start _c3_room "H" none none [_c3_deck_card] [] "TTTT" 0).2 =
      [Event.gameError "Not enough tracks to deal opening cards"] ∧
    (handle_start _c3_room "H" none none [_c3_deck_card] [] "TTTT" 0).1.players.map
        Player.timeline ≠ _c3_room.players.map Player.timeline := by
  decide

/-- C3 (amended): when the host starts a lobby with at least two non-host
players and the loaded deck is non-empty but smaller than the player count,
the start fails with the shortage error: the room status returns to lobby,
the rebuilt deck has empty used and discard sets (no partial deal), and
every non-host player is left with an empty timeline — which leaves all
timelines unchanged exactly when they were already empty, the normal lobby
state. -/
theorem C3_start_shortage_keeps_lobby (room0 : Room) (hostIdIn : String)
    (tiePolicyIn : Option TiePolicy) (playlistId : Option String) (cards : List Card)
    (picks : List Nat) (turnId : String) (k : Nat)
    (hhost : hostIdIn = room0.hostId) (hlobby : room0.status = .lobby)
    (hcards : cards.isEmpty = false)
    (hcount : 2 ≤ (actual_players (_cleanup_host_entries room0)).length)
    (hshort : cards.length < (actual_players (_cleanup_host_entries room0)).length) :
    (handle_start room0 hostIdIn tiePolicyIn playlistId cards picks turnId k).1.status
        = .lobby ∧
    (handle_start room0 hostIdIn tiePolicyIn playlistId cards picks turnId k).2 =
      [Event.gameError "Not enough tracks to deal opening cards"] ∧
    (handle_start room0 hostIdIn tiePolicyIn playlistId cards picks turnId k).1.deck.used
        = [] ∧
    (handle_start room0 hostIdIn tiePolicyIn playlistId cards picks turnId
        k).1.deck.discard = [] ∧
    (∀ q ∈ (handle_start room0 hostIdIn tiePolicyIn playlistId cards picks turnId
        k).1.players, q.timeline = []) ∧
    ((∀ q ∈ room0.players, _is_host_entry room0.hostId q = false →
        q.timeline = [] ∧ q.score = 0) →
      (handle_start room0 hostIdIn tiePolicyIn playlistId cards picks turnId k).1.players
        = (_cleanup_host_entries room0).players) := by
  subst hhost
  rw [actual_players_cleanup] at hcount hshort
  have hngate : ¬ (actual_players (_cleanup_host_entries room0)).length < 2 := by
    rw [actual_players_cleanup]
    omega
  have hmem_flag : ∀ q ∈ (_cleanup_host_entries room0).players,
      _is_host_entry room0.hostId q = false := by
    intro q hq
    simp only [_cleanup_host_entries] at hq
    have := (List.mem_filter.mp hq).2
    simpa using this
  have hclean2 : ((_cleanup_host_entries room0).players.map
        (_reset_player room0.hostId)).filter
      (fun p => !(_is_host_entry room0.hostId p)) =
      (_cleanup_host_entries room0).players.map (_reset_player room0.hostId) := by
    apply List.filter_eq_self.mpr
    intro a ha
    obtain ⟨q, hqmem, rfl⟩ := List.mem_map.mp ha
    simp [_reset_player_host_flag, hmem_flag q hqmem]
  have hlen : ((_cleanup_host_entries room0).players.map
      (_reset_player room0.hostId)).length = (_cleanup_host_entries room0).players.length :=
    List.length_map _ _
  have hne2 : ((_cleanup_host_entries room0).players.map
      (_reset_player room0.hostId)).isEmpty = false := by
    cases hm : (_cleanup_host_entries room0).players.map (_reset_player room0.hostId) with
    | nil =>
      exfalso
      have h0 := congrArg List.length hm
      rw [hlen] at h0
      simp only [List.length_nil] at h0
      omega
    | cons a l => rfl
  have htl2 : ∀ q ∈ (_cleanup_host_entries room0).players.map
      (_reset_player room0.hostId), q.timeline = [] := by
    intro q hq
    obtain ⟨r, hr, rfl⟩ := List.mem_map.mp hq
    exact _reset_player_timeline _ _ (hmem_flag r hr)
  have hshort2 : cards.length < ((_cleanup_host_entries room0).players.map
      (_reset_player room0.hostId)).length := by
    rw [hlen]
    exact hshort
  have hmapid : (∀ q ∈ room0.players, _is_host_entry room0.hostId q = false →
      q.timeline = [] ∧ q.score = 0) →
      (_cleanup_host_entries room0).players.map (_reset_player room0.hostId) =
        (_cleanup_host_entries room0).players := by
    intro hempt
    have hcongr : ∀ a ∈ (_cleanup_host_entries room0).players,
        _reset_player room0.hostId a = a := by
      intro a ha
      have hflag := hmem_flag a ha
      have haP : a ∈ room0.players := by
        simp only [_cleanup_host_entries] at ha
        exact List.mem_of_mem_filter ha
      obtain ⟨h1, h2⟩ := hempt a haP hflag
      exact _reset_player_eq_self _ _ h1 h2
    calc (_cleanup_host_entries room0).players.map (_reset_player room0.hostId)
        = (_cleanup_host_entries room0).players.map id := List.map_congr_left hcongr
      _ = (_cleanup_host_entries room0).players := List.map_id _
  cases tiePolicyIn with
  | none =>
    simp only [handle_start, hlobby, hcards, hngate, ne_eq, not_true_eq_false,
      Bool.false_eq_true, if_false, ite_false, not_false_eq_true]
    split
    · next msg heq =>
      have hmsg := _deal_opening_cards_shortage _ picks _ heq hclean2 hne2 htl2 rfl rfl
        hshort2
      injection hmsg with hmsg
      subst hmsg
      exact ⟨rfl, rfl, rfl, rfl, htl2, fun hempt => hmapid hempt⟩
    · next room1 heq =>
      have hmsg := _deal_opening_cards_shortage _ picks _ heq hclean2 hne2 htl2 rfl rfl
        hshort2
      exact absurd hmsg (by simp)
  | some tp =>
    simp only [handle_start, hlobby, hcards, hngate, ne_eq, not_true_eq_false,
      Bool.false_eq_true, if_false, ite_false, not_false_eq_true]
    split
    · next msg heq =>
      have hmsg := _deal_opening_cards_shortage _ picks _ heq hclean2 hne2 htl2 rfl rfl
        hshort2
      injection hmsg with hmsg
      subst hmsg
      exact ⟨rfl, rfl, rfl, rfl, htl2, fun hempt => hmapid hempt⟩
    · next room1 heq =>
      have hmsg := _deal_opening_cards_shortage _ picks _ heq hclean2 hne2 htl2 rfl rfl
        hshort2
      exact absurd hmsg (by simp)

/-- A normal lobby for the shortage witness: two non-host players with empty
timelines. -/
def _c3w_room : Room :=
  { code := "ROOM", hostId := "H",
    players := [{ id := "p1", name := "Ann", seat := 0, score := 0, is_host := false,
                  timeline := [] },
                { id := "p2", name := "Bo", seat := 1, score := 0, is_host := false,
                  timeline := [] }],
    status := .lobby, turnIndex := 0, turn := none,
    deck := { playlistId := none, cards := [], used := [], discard := [] },
    winnerId := none, tiePolicy := .lenient, targetPoints := 10 }

/-- Witness for the amended C3 at a concrete lobby with one loaded card and
two players. -/
theorem C3_start_shortage_keeps_lobby_witness :
    (handle_start _c3w_room "H" none none [_c3_deck_card] [] "TTTT" 0).1.status
        = .lobby ∧
    (handle_start _c3w_room "H" none none [_c3_deck_card] [] "TTTT" 0).2 =
      [Event.gameError "Not enough tracks to deal opening cards"] ∧
    (handle_start _c3w_room "H" none none [_c3_deck_card] [] "TTTT" 0).1.deck.used
        = [] ∧
    (handle_start _c3w_room "H" none none [_c3_deck_card] [] "TTTT" 0).1.deck.discard
        = [] ∧
    (∀ q ∈ (handle_start _c3w_room "H" none none [_c3_deck_card] [] "TTTT"
        0).1.players, q.timeline = []) ∧
    ((∀ q ∈ _c3w_room.players, _is_host_entry _c3w_room.hostId q = false →
        q.timeline = [] ∧ q.score = 0) →
      (handle_start _c3w_room "H" none none [_c3_deck_card] [] "TTTT" 0).1.players
        = (_cleanup_host_entries _c3w_room).players) :=
  C3_start_shortage_keeps_lobby _c3w_room "H" none none [_c3_deck_card] [] "TTTT" 0
    rfl rfl (by decide) (by decide) (by decide)
